import Mathlib

/-!
Shallow embedding of `src/rcc.rs` (stm32h7x3-hal clock configuration).

Modelling conventions:
- `u32` machine integers are modelled as `Nat`; Rust release-mode wrapping
  arithmetic is made explicit with `% 2^32` (`wrapSub`, `wrapMul`).
- Frequencies (`Hertz`) are the underlying `Nat` count of Hz.
- A Rust `panic!` / failed `assert!` / hit `unreachable!()` / failed cast
  `u8(..).unwrap()` is modelled as `none` (the computation stops).
- `CFGR::freeze` performs hardware register writes; these are recorded, in
  program order, as a `List RegWrite`, so that which writes precede a panic
  is observable.  The busy-wait loops only read registers and are dropped.
-/

/-- Internal oscillator frequency, `const HSI: u32 = 64_000_000`. -/
def HSI : Nat := 64000000

/-- Modulus of 32-bit machine arithmetic. -/
def U32 : Nat := 4294967296

/-- Rust u32 wrapping subtraction `a - b` (release semantics). -/
def wrapSub (a b : Nat) : Nat := (a + U32 - b % U32) % U32

/-- Rust u32 wrapping multiplication `a * b` (release semantics). -/
def wrapMul (a b : Nat) : Nat := a * b % U32

/-- The builder state `struct CFGR` from `src/rcc.rs` (lines 124-137). -/
structure CFGR where
  hclk1 : Option Nat
  hclk2 : Option Nat
  hclk3 : Option Nat
  hclk4 : Option Nat
  pclk1 : Option Nat
  pclk2 : Option Nat
  pclk3 : Option Nat
  pclk4 : Option Nat
  sys_ck : Option Nat
  divm : Option Nat
  divn : Option Nat
  divp : Option Nat
deriving DecidableEq

/-- The `CFGR` value produced by `RccExt::constrain` (lines 24-37): all fields `None`. -/
def constrainCfgr : CFGR :=
  { hclk1 := none, hclk2 := none, hclk3 := none, hclk4 := none,
    pclk1 := none, pclk2 := none, pclk3 := none, pclk4 := none,
    sys_ck := none, divm := none, divn := none, divp := none }

/-- Setter `CFGR::hclk1` (lines 141-147). -/
def setHclk1 (c : CFGR) (f : Nat) : CFGR := { c with hclk1 := some f }

/-- Setter `CFGR::hclk2` (lines 150-156). -/
def setHclk2 (c : CFGR) (f : Nat) : CFGR := { c with hclk2 := some f }

/-- Setter `CFGR::hclk3` (lines 159-165). -/
def setHclk3 (c : CFGR) (f : Nat) : CFGR := { c with hclk3 := some f }

/-- Setter `CFGR::hclk4` (lines 168-174). -/
def setHclk4 (c : CFGR) (f : Nat) : CFGR := { c with hclk4 := some f }

/-- Setter `CFGR::pclk1` (lines 177-183). -/
def setPclk1 (c : CFGR) (f : Nat) : CFGR := { c with pclk1 := some f }

/-- Setter `CFGR::pclk2` (lines 186-192). -/
def setPclk2 (c : CFGR) (f : Nat) : CFGR := { c with pclk2 := some f }

/-- Setter `CFGR::pclk3` (lines 195-201). -/
def setPclk3 (c : CFGR) (f : Nat) : CFGR := { c with pclk3 := some f }

/-- Setter `CFGR::pclk4` (lines 204-210). -/
def setPclk4 (c : CFGR) (f : Nat) : CFGR := { c with pclk4 := some f }

/-- Setter `CFGR::sys_ck(divm, divn, divp)` (lines 217-231).
`assert!` failures are `none`.  The multiplication `ref_ck * divn` is a u32
multiplication and wraps (release semantics), hence `wrapMul`. -/
def sysCkSet (c : CFGR) (divm divn divp : Nat) : Option CFGR :=
  if 0 < divm ∧ divm < 64 then
    if 2 < divn ∧ divn < 513 then
      if 1 < divp ∧ divp < 129 ∧ divp % 2 = 0 then
        let ref_ck := HSI / divm
        if 1000000 < ref_ck ∧ ref_ck < 16000000 then
          let pll_p_ck := wrapMul ref_ck divn / divp
          if pll_p_ck < 400000000 then
            some { c with divm := some divm, divp := some divp, divn := some divn,
                          sys_ck := some pll_p_ck }
          else none
        else none
      else none
    else none
  else none

/-- One register-field write performed by `CFGR::freeze`, in the order they
appear in the source. -/
inductive RegWrite where
  | cfgrSw (v : Nat)
  | pllSrc (v : Nat)
  | pllDivm (v : Nat)
  | pllRge (v : Nat)
  | pllVcosel (b : Bool)
  | pllFracen (b : Bool)
  | pllDivn (v : Nat)
  | pllDivpEn (b : Bool)
  | pllDivp (v : Nat)
  | pllOn (b : Bool)
  | hpreReg (v : Nat)
  | flashAcr (latency wrhighfreq : Nat)
  | d1ppreReg (v : Nat)
  | d2ppre1Reg (v : Nat)
  | d2ppre2Reg (v : Nat)
  | d3ppreReg (v : Nat)
deriving DecidableEq

/-- The `rge_bits` match in `freeze` (lines 256-262).  The Rust range
patterns `a..b` are half-open, so `ref_ck` equal to exactly 2, 4 or 8 MHz
(and anything outside (1 MHz, 16 MHz)) falls through to `unreachable!()`,
modelled as `none`. -/
def rgeBits (ref_ck : Nat) : Option Nat :=
  if 1000000 < ref_ck ∧ ref_ck < 2000000 then some 0
  else if 2000000 < ref_ck ∧ ref_ck < 4000000 then some 1
  else if 4000000 < ref_ck ∧ ref_ck < 8000000 then some 2
  else if 8000000 < ref_ck ∧ ref_ck < 16000000 then some 3
  else none

/-- The flash wait-state / programming-delay match in `freeze` (lines
368-375).  The half-open Rust range patterns leave exactly 45, 90, 135 and
180 MHz (and anything at or above 225 MHz) uncovered: those hit
`unreachable!()`, modelled as `none`. -/
def acrConfig (hclk : Nat) : Option (Nat × Nat) :=
  if hclk < 45000000 then some (0, 0)
  else if 45000000 < hclk ∧ hclk < 90000000 then some (1, 1)
  else if 90000000 < hclk ∧ hclk < 135000000 then some (2, 1)
  else if 135000000 < hclk ∧ hclk < 180000000 then some (3, 2)
  else if 180000000 < hclk ∧ hclk < 225000000 then some (4, 2)
  else none

/-- Core-bus (HPRE) divisor table (line 297). -/
def hpreTable : List Nat := [1, 2, 4, 8, 16, 64, 128, 256, 512]

/-- Peripheral-bus (PPRE) divisor table (lines 379, 396, 413, 430). -/
def ppreTable : List Nat := [1, 2, 4, 8, 16]

/-- The closest-divisor search loop used (with identical structure) for the
HPRE field and all four PPRE fields: `closest` starts at `200_000_000`,
`best` at `1`, and a divisor `d` replaces the best when the u32 difference
`target - src / d` (which wraps on overshoot) is strictly smaller than
`closest` (lines 304-312 and the three copies; lines 384-392 etc.). -/
def bestDiv (target src : Nat) (tab : List Nat) : Nat :=
  (tab.foldl
    (fun bc d => if wrapSub target (src / d) < bc.2 then (d, wrapSub target (src / d)) else bc)
    (1, 200000000)).1

/-- HPRE selection in `freeze` (lines 296-359): the first set core-bus
target (in order hclk1, hclk2, hclk3, hclk4) is used; its `assert!(.. <
200_000_000)` is modelled as `none`; with no target the divisor is 1, or 2
when `sys_ck` exceeds 200 MHz. -/
def hpreSel (c : CFGR) (sys : Nat) : Option Nat :=
  match c.hclk1 with
  | some t => if t < 200000000 then some (bestDiv t sys hpreTable) else none
  | none =>
    match c.hclk2 with
    | some t => if t < 200000000 then some (bestDiv t sys hpreTable) else none
    | none =>
      match c.hclk3 with
      | some t => if t < 200000000 then some (bestDiv t sys hpreTable) else none
      | none =>
        match c.hclk4 with
        | some t => if t < 200000000 then some (bestDiv t sys hpreTable) else none
        | none => some (if 200000000 < sys then 2 else 1)

/-- PPRE selection in `freeze` (lines 378-393 and the three copies): the
target defaults to `hclk`; when it differs from `hclk` the closest-divisor
search over `ppreTable` runs, otherwise the divisor stays 1. -/
def ppreSel (target : Option Nat) (hclk : Nat) : Nat :=
  let p := target.getD hclk
  if p ≠ hclk then bestDiv p hclk ppreTable else 1

/-- The frozen result `struct Clocks` (lines 488-503). -/
structure Clocks where
  sys_ck : Nat
  pclk1 : Nat
  pclk2 : Nat
  pclk3 : Nat
  pclk4 : Nat
  hclk1 : Nat
  hclk2 : Nat
  hclk3 : Nat
  hclk4 : Nat
  hpre : Nat
  d1ppre : Nat
  d2ppre1 : Nat
  d2ppre2 : Nat
  d3ppre : Nat
deriving DecidableEq

/-- Outcome of `CFGR::freeze`: the register writes performed, in program
order, and the returned `Clocks` (`none` when a panic cut the run short). -/
structure FreezeOut where
  writes : List RegWrite
  result : Option Clocks
deriving DecidableEq

/-- Tail of `freeze` after the system clock is established (lines 296-481):
HPRE search and write (the `u8(hpre).unwrap()` cast fails for divisors 256
and 512, before the write), flash ACR selection and write, the four PPRE
searches, the four PPRE writes, and the `Clocks` record.  The `u8` casts of
the PPRE divisors always succeed (the table tops out at 16). -/
def freezeBus (ws : List RegWrite) (sys : Nat) (c : CFGR) : FreezeOut :=
  match hpreSel c sys with
  | none => ⟨ws, none⟩
  | some hpre =>
    if hpre < 256 then
      let hclk := sys / hpre
      match acrConfig hclk with
      | none => ⟨ws ++ [RegWrite.hpreReg hpre], none⟩
      | some acr =>
        let d1 := ppreSel c.pclk1 hclk
        let d2 := ppreSel c.pclk2 hclk
        let d3 := ppreSel c.pclk3 hclk
        let d4 := ppreSel c.pclk4 hclk
        ⟨ws ++ [RegWrite.hpreReg hpre, RegWrite.flashAcr acr.1 acr.2,
                RegWrite.d1ppreReg d1, RegWrite.d2ppre1Reg d2,
                RegWrite.d2ppre2Reg d3, RegWrite.d3ppreReg d4],
         some { sys_ck := sys,
                pclk1 := hclk / d1, pclk2 := hclk / d2,
                pclk3 := hclk / d3, pclk4 := hclk / d4,
                hclk1 := hclk, hclk2 := hclk, hclk3 := hclk, hclk4 := hclk,
                hpre := hpre, d1ppre := d1, d2ppre1 := d2, d2ppre2 := d3, d3ppre := d4 }⟩
    else ⟨ws, none⟩

/-- PLL engagement path of `freeze` (lines 245-294), taken when the stored
system clock differs from `HSI`.  Write order and panic points follow the
source: `pllsrc`; the `u8(divm)` cast then the `divm1` write; the division
`HSI / divm` (a zero divider would panic); the RGE match (`none` at its
holes); `vcosel`; `fracen`; the `u16(divn)` cast then the `divn1` write;
`divp1en`; the `u8(divp)` cast then the `divp1` write; PLL on; the switch of
`sw` to the PLL; finally the recomputation of `sys_ck` (a zero `divp` would
panic).  Defaults: divm 32, divn 128, divp 1. -/
def pllSeq (c : CFGR) : FreezeOut :=
  let divm := c.divm.getD 32
  if divm < 256 then
    if divm ≠ 0 then
      let ref_ck := HSI / divm
      match rgeBits ref_ck with
      | none => ⟨[RegWrite.pllSrc 0, RegWrite.pllDivm divm], none⟩
      | some rge =>
        let divn := c.divn.getD 128
        if divn < 65536 then
          let divp := c.divp.getD 1
          if divp < 256 then
            if divp ≠ 0 then
              freezeBus
                [RegWrite.pllSrc 0, RegWrite.pllDivm divm, RegWrite.pllRge rge,
                 RegWrite.pllVcosel (decide (ref_ck < 2000000)), RegWrite.pllFracen false,
                 RegWrite.pllDivn divn, RegWrite.pllDivpEn true, RegWrite.pllDivp divp,
                 RegWrite.pllOn true, RegWrite.cfgrSw 3]
                (wrapMul ref_ck divn / divp) c
            else
              ⟨[RegWrite.pllSrc 0, RegWrite.pllDivm divm, RegWrite.pllRge rge,
                RegWrite.pllVcosel (decide (ref_ck < 2000000)), RegWrite.pllFracen false,
                RegWrite.pllDivn divn, RegWrite.pllDivpEn true, RegWrite.pllDivp divp,
                RegWrite.pllOn true, RegWrite.cfgrSw 3], none⟩
          else
            ⟨[RegWrite.pllSrc 0, RegWrite.pllDivm divm, RegWrite.pllRge rge,
              RegWrite.pllVcosel (decide (ref_ck < 2000000)), RegWrite.pllFracen false,
              RegWrite.pllDivn divn, RegWrite.pllDivpEn true], none⟩
        else
          ⟨[RegWrite.pllSrc 0, RegWrite.pllDivm divm, RegWrite.pllRge rge,
            RegWrite.pllVcosel (decide (ref_ck < 2000000)), RegWrite.pllFracen false], none⟩
    else ⟨[RegWrite.pllSrc 0, RegWrite.pllDivm divm], none⟩
  else ⟨[RegWrite.pllSrc 0], none⟩

/-- `CFGR::freeze` (lines 234-481).  With the stored system clock equal to
`HSI` (or unset) the HSI path just re-selects the oscillator (`sw := 0`);
otherwise the PLL engagement sequence runs.  Both continue with
`freezeBus`. -/
def freeze (c : CFGR) : FreezeOut :=
  if c.sys_ck.getD HSI = HSI then
    freezeBus [RegWrite.cfgrSw 0] HSI c
  else
    pllSeq c

/-- The recomputation of the achieved system clock at line 293 of `freeze`,
from the actually-programmed divider values (with the coded fallback
defaults 32 / 128 / 1). -/
def freezeSysRecompute (c : CFGR) : Nat :=
  wrapMul (HSI / c.divm.getD 32) (c.divn.getD 128) / c.divp.getD 1

/-- First flash ACR write in a write trace, as the selected
(wait-states, programming-delay) pair. -/
def flashSel : List RegWrite → Option (Nat × Nat)
  | [] => none
  | RegWrite.flashAcr a b :: _ => some (a, b)
  | _ :: r => flashSel r

/-- Writes that target the system-clock-source / PLL control registers, as
opposed to prescaler or flash-control registers. -/
def sysOrPllWrite : RegWrite → Bool
  | RegWrite.cfgrSw _ => true
  | RegWrite.pllSrc _ => true
  | RegWrite.pllDivm _ => true
  | RegWrite.pllRge _ => true
  | RegWrite.pllVcosel _ => true
  | RegWrite.pllFracen _ => true
  | RegWrite.pllDivn _ => true
  | RegWrite.pllDivpEn _ => true
  | RegWrite.pllDivp _ => true
  | RegWrite.pllOn _ => true
  | _ => false

/-- Builder states reachable through the public API: `constrain` followed by
any chain of setters (a `sys_ck` call contributes only when its asserts
pass, i.e. it returns). -/
inductive Reachable : CFGR → Prop where
  | constrain : Reachable constrainCfgr
  | hclk1 : ∀ c f, Reachable c → Reachable (setHclk1 c f)
  | hclk2 : ∀ c f, Reachable c → Reachable (setHclk2 c f)
  | hclk3 : ∀ c f, Reachable c → Reachable (setHclk3 c f)
  | hclk4 : ∀ c f, Reachable c → Reachable (setHclk4 c f)
  | pclk1 : ∀ c f, Reachable c → Reachable (setPclk1 c f)
  | pclk2 : ∀ c f, Reachable c → Reachable (setPclk2 c f)
  | pclk3 : ∀ c f, Reachable c → Reachable (setPclk3 c f)
  | pclk4 : ∀ c f, Reachable c → Reachable (setPclk4 c f)
  | sysck : ∀ c m n p c2, Reachable c → sysCkSet c m n p = some c2 → Reachable c2

/-- Amended-claim side of C6, written from the spec's words with the
product taken in 32-bit wrapping arithmetic: pre-divider 1-63, multiplier
3-512, post-divider even 2-128, reference frequency strictly between 1 and
16 MHz, wrapped PLL output strictly below 400 MHz. -/
abbrev specValidTriple (m n p : Nat) : Prop :=
  0 < m ∧ m < 64 ∧ 2 < n ∧ n < 513 ∧ 1 < p ∧ p < 129 ∧ p % 2 = 0 ∧
  1000000 < HSI / m ∧ HSI / m < 16000000 ∧ wrapMul (HSI / m) n / p < 400000000

/-- Builder state after `sys_ck(32, 129, 2)` (the C2 scenario, stored
system clock 129 MHz). -/
def cfgr129 : CFGR :=
  { constrainCfgr with divm := some 32, divp := some 2, divn := some 129,
                       sys_ck := some 129000000 }

/-- Builder state after `sys_ck(5, 225, 64)` (stored system clock 45 MHz,
exactly on a flash-table boundary). -/
def cfgr45 : CFGR :=
  { constrainCfgr with divm := some 5, divp := some 64, divn := some 225,
                       sys_ck := some 45000000 }

/-- Builder state after `sys_ck(5, 300, 16)` (stored system clock 240 MHz,
no bus-domain targets). -/
def cfgr240 : CFGR :=
  { constrainCfgr with divm := some 5, divp := some 16, divn := some 300,
                       sys_ck := some 240000000 }

/-- Builder state with only a 201 MHz hclk1 target (the C3 scenario). -/
def cfgr201 : CFGR := { constrainCfgr with hclk1 := some 201000000 }

/-- Builder state with only a 100 MHz hclk1 target. -/
def cfgrH1 : CFGR := { constrainCfgr with hclk1 := some 100000000 }

/-- The `Clocks` record freeze produces from the default (all-unset)
builder: everything at 64 MHz, all divisors 1. -/
def clocksHsi : Clocks :=
  { sys_ck := 64000000,
    pclk1 := 64000000, pclk2 := 64000000, pclk3 := 64000000, pclk4 := 64000000,
    hclk1 := 64000000, hclk2 := 64000000, hclk3 := 64000000, hclk4 := 64000000,
    hpre := 1, d1ppre := 1, d2ppre1 := 1, d2ppre2 := 1, d3ppre := 1 }

/-! ## Helper lemmas -/

/-- Invariant of the closest-divisor fold: starting from best 1 and closest
200000000 and scanning a strictly ascending suffix `l` of the table, the
final best divisor lies in the table and every strictly smaller table entry
has a strictly larger (wrapping) distance. -/
lemma searchFold_inv (P : Nat → Nat) (tab : List Nat) (hpos : ∀ d ∈ tab, 0 < d) :
    ∀ (l : List Nat) (b c : Nat),
      b ∈ tab →
      c ≤ 200000000 →
      (c = 200000000 → b = 1) →
      (c < 200000000 → P b = c) →
      (∀ d ∈ tab, d < b → c < P d) →
      (∀ d ∈ tab, (∀ e ∈ l, d < e) → c ≤ P d) →
      (∀ d ∈ tab, (∀ e ∈ l, d < e) ∨ d ∈ l) →
      List.Pairwise (fun x y => x < y) l →
      (∀ e ∈ l, e ∈ tab) →
      ((l.foldl (fun bc d => if P d < bc.2 then (d, P d) else bc) (b, c)).1 ∈ tab ∧
       ∀ d ∈ tab, d < (l.foldl (fun bc d => if P d < bc.2 then (d, P d) else bc) (b, c)).1 →
         P ((l.foldl (fun bc d => if P d < bc.2 then (d, P d) else bc) (b, c)).1) < P d) := by
  intro l
  induction l with
  | nil =>
    intro b c hb hc200 hcdef hcb hstrict _ _ _ _
    simp only [List.foldl_nil]
    refine ⟨hb, fun d hd hdb => ?_⟩
    rcases lt_or_eq_of_le hc200 with hlt | heq
    · rw [hcb hlt]
      exact hstrict d hd hdb
    · have hb1 := hcdef heq
      have hd0 := hpos d hd
      omega
  | cons e l ih =>
    intro b c hb hc200 hcdef hcb hstrict hcover hsuffix hsort hsub
    have hpair := List.pairwise_cons.mp hsort
    simp only [List.foldl_cons]
    by_cases hPe : P e < c
    · rw [if_pos hPe]
      apply ih e (P e)
      · exact hsub e (List.mem_cons_self e l)
      · omega
      · intro h; omega
      · intro _; rfl
      · intro d hd hde
        rcases hsuffix d hd with hall | hmem
        · exact lt_of_lt_of_le hPe (hcover d hd hall)
        · rcases List.mem_cons.mp hmem with rfl | hml
          · omega
          · have := hpair.1 d hml
            omega
      · intro d hd hall
        rcases hsuffix d hd with hall2 | hmem
        · exact le_of_lt (lt_of_lt_of_le hPe (hcover d hd hall2))
        · rcases List.mem_cons.mp hmem with rfl | hml
          · exact le_refl _
          · exact absurd (hall d hml) (lt_irrefl d)
      · intro d hd
        rcases hsuffix d hd with hall | hmem
        · exact Or.inl fun x hx => hall x (List.mem_cons_of_mem _ hx)
        · rcases List.mem_cons.mp hmem with rfl | hml
          · exact Or.inl hpair.1
          · exact Or.inr hml
      · exact hpair.2
      · exact fun x hx => hsub x (List.mem_cons_of_mem _ hx)
    · rw [if_neg hPe]
      apply ih b c hb hc200 hcdef hcb hstrict
      · intro d hd hall
        rcases hsuffix d hd with hall2 | hmem
        · exact hcover d hd hall2
        · rcases List.mem_cons.mp hmem with rfl | hml
          · omega
          · exact absurd (hall d hml) (lt_irrefl d)
      · intro d hd
        rcases hsuffix d hd with hall | hmem
        · exact Or.inl fun x hx => hall x (List.mem_cons_of_mem _ hx)
        · rcases List.mem_cons.mp hmem with rfl | hml
          · exact Or.inl hpair.1
          · exact Or.inr hml
      · exact hpair.2
      · exact fun x hx => hsub x (List.mem_cons_of_mem _ hx)

/-- The closest-divisor search returns a table member, and every strictly
smaller table entry is strictly farther from the target under the wrapping
distance. -/
lemma bestDiv_inv (t s : Nat) (tab : List Nat) (h1 : 1 ∈ tab)
    (hpos : ∀ d ∈ tab, 0 < d) (hsort : List.Pairwise (fun x y => x < y) tab) :
    bestDiv t s tab ∈ tab ∧
    ∀ d ∈ tab, d < bestDiv t s tab →
      wrapSub t (s / bestDiv t s tab) < wrapSub t (s / d) := by
  have key := searchFold_inv (fun d => wrapSub t (s / d)) tab hpos tab 1 200000000 h1
    (le_refl _) (fun _ => rfl) (fun h => absurd h (lt_irrefl _))
    (fun d hd hdb => absurd hdb (by have := hpos d hd; omega))
    (fun d hd hall => absurd (hall d hd) (lt_irrefl d))
    (fun d hd => Or.inr hd) hsort (fun e he => he)
  exact key

/-- The PPRE selection always lands in the peripheral divisor table. -/
lemma ppreSel_mem (t : Option Nat) (hclk : Nat) : ppreSel t hclk ∈ ppreTable := by
  show (if t.getD hclk ≠ hclk then bestDiv (t.getD hclk) hclk ppreTable else 1) ∈ ppreTable
  split
  · exact (bestDiv_inv _ _ ppreTable (by decide) (by decide) (by decide)).1
  · decide

/-- Characterization of a successful flash-table lookup: which band the
frequency lies in and which wait-state count it yields. -/
lemma acrConfig_eq_some (f w p : Nat) (h : acrConfig f = some (w, p)) :
    (f < 45000000 ∧ w = 0) ∨ (45000000 < f ∧ f < 90000000 ∧ w = 1) ∨
    (90000000 < f ∧ f < 135000000 ∧ w = 2) ∨
    (135000000 < f ∧ f < 180000000 ∧ w = 3) ∨
    (180000000 < f ∧ f < 225000000 ∧ w = 4) := by
  unfold acrConfig at h
  split_ifs at h with h1 h2 h3 h4 h5 <;>
    simp only [Option.some.injEq, Prod.mk.injEq] at h <;> omega

/-- When the HPRE selection panics, `freezeBus` performs no further write. -/
lemma freezeBus_none_sel (ws : List RegWrite) (sys : Nat) (c : CFGR)
    (h : hpreSel c sys = none) : freezeBus ws sys c = ⟨ws, none⟩ := by
  unfold freezeBus
  rw [h]

/-- A present hclk1 target at or above 200 MHz makes the HPRE selection
panic (the `assert!` at line 303), whatever the system clock is. -/
lemma hclk1_big_sel (c : CFGR) (sys t : Nat) (h1 : c.hclk1 = some t)
    (h2 : 200000000 ≤ t) : hpreSel c sys = none := by
  simp only [hpreSel, h1]
  rw [if_neg (by omega)]

/-- When every HPRE selection panics, the PLL path stops with no result and
only system-clock-source / PLL writes performed. -/
lemma pllSeq_guarded (c : CFGR) (hsel : ∀ sys, hpreSel c sys = none) :
    (pllSeq c).result = none ∧ (pllSeq c).writes.all sysOrPllWrite = true := by
  simp only [pllSeq]
  split
  · split
    · split
      · exact ⟨rfl, rfl⟩
      · split
        · split
          · split
            · rw [freezeBus_none_sel _ _ _ (hsel _)]
              exact ⟨rfl, rfl⟩
            · exact ⟨rfl, rfl⟩
          · exact ⟨rfl, rfl⟩
        · exact ⟨rfl, rfl⟩
    · exact ⟨rfl, rfl⟩
  · exact ⟨rfl, rfl⟩

/-- A successful `freeze` result always comes out of `freezeBus`. -/
lemma freeze_via_bus (c : CFGR) (clk : Clocks) (h : (freeze c).result = some clk) :
    ∃ ws sys, (freezeBus ws sys c).result = some clk := by
  simp only [freeze] at h
  split at h
  · exact ⟨_, _, h⟩
  · simp only [pllSeq] at h
    split at h
    · split at h
      · split at h
        · exact absurd h (by simp)
        · split at h
          · split at h
            · split at h
              · exact ⟨_, _, h⟩
              · exact absurd h (by simp)
            · exact absurd h (by simp)
          · exact absurd h (by simp)
      · exact absurd h (by simp)
    · exact absurd h (by simp)

/-- A successful `freezeBus` reports, for each peripheral domain, the
divisor chosen by the PPRE search and exactly the integer quotient of the
core-bus frequency by it. -/
lemma freezeBus_ppre (ws : List RegWrite) (sys : Nat) (c : CFGR) (clk : Clocks)
    (h : (freezeBus ws sys c).result = some clk) :
    (clk.d1ppre ∈ ppreTable ∧ clk.pclk1 = clk.hclk1 / clk.d1ppre) ∧
    (clk.d2ppre1 ∈ ppreTable ∧ clk.pclk2 = clk.hclk2 / clk.d2ppre1) ∧
    (clk.d2ppre2 ∈ ppreTable ∧ clk.pclk3 = clk.hclk3 / clk.d2ppre2) ∧
    (clk.d3ppre ∈ ppreTable ∧ clk.pclk4 = clk.hclk4 / clk.d3ppre) := by
  simp only [freezeBus] at h
  split at h
  · exact absurd h (by simp)
  · split at h
    · split at h
      · exact absurd h (by simp)
      · simp only [Option.some.injEq] at h
        subst h
        exact ⟨⟨ppreSel_mem _ _, rfl⟩, ⟨ppreSel_mem _ _, rfl⟩,
               ⟨ppreSel_mem _ _, rfl⟩, ⟨ppreSel_mem _ _, rfl⟩⟩
    · exact absurd h (by simp)

/-- Invariant of reachable builder states: the stored system clock and the
three PLL dividers are set together, and the stored system clock is exactly
what the line-293 recomputation in `freeze` yields. -/
lemma reachable_inv (c : CFGR) (h : Reachable c) :
    (c.sys_ck.isSome ↔ c.divm.isSome ∧ c.divn.isSome ∧ c.divp.isSome) ∧
    ∀ s, c.sys_ck = some s → freezeSysRecompute c = s := by
  induction h with
  | constrain =>
    exact ⟨by simp [constrainCfgr], fun s hs => by simp [constrainCfgr] at hs⟩
  | hclk1 c f hr ih => simpa [setHclk1, freezeSysRecompute] using ih
  | hclk2 c f hr ih => simpa [setHclk2, freezeSysRecompute] using ih
  | hclk3 c f hr ih => simpa [setHclk3, freezeSysRecompute] using ih
  | hclk4 c f hr ih => simpa [setHclk4, freezeSysRecompute] using ih
  | pclk1 c f hr ih => simpa [setPclk1, freezeSysRecompute] using ih
  | pclk2 c f hr ih => simpa [setPclk2, freezeSysRecompute] using ih
  | pclk3 c f hr ih => simpa [setPclk3, freezeSysRecompute] using ih
  | pclk4 c f hr ih => simpa [setPclk4, freezeSysRecompute] using ih
  | sysck c m n p c2 hr hset ih =>
    simp only [sysCkSet] at hset
    split_ifs at hset with h1 h2 h3 h4 h5
    · simp only [Option.some.injEq] at hset
      subst hset
      refine ⟨by simp, fun s hs => ?_⟩
      simp only [Option.some.injEq] at hs
      simp [freezeSysRecompute, hs]

/-! ## Claim theorems -/

/-- C1 (counterexample): with the default builder (oscillator 64 MHz, no
targets) `freeze` selects flash wait-state count 1, not 0 as claimed — 64
MHz falls in the 45-90 MHz row of the flash table. -/
theorem c1_counterexample :
    (flashSel (freeze constrainCfgr).writes).map Prod.fst = some 1 ∧
    (flashSel (freeze constrainCfgr).writes).map Prod.fst ≠ some 0 := by decide

/-- C1 (amended): oscillator 64 MHz and no targets give achieved system
clock 64 MHz, every prescaler divisor 1, all eight achieved bus frequencies
64 MHz, and selected flash wait-states 1 (with programming delay 1), the
45-90 MHz table row. -/
theorem c1_freeze_default :
    freeze constrainCfgr =
      { writes := [RegWrite.cfgrSw 0, RegWrite.hpreReg 1, RegWrite.flashAcr 1 1,
                   RegWrite.d1ppreReg 1, RegWrite.d2ppre1Reg 1, RegWrite.d2ppre2Reg 1,
                   RegWrite.d3ppreReg 1],
        result := some clocksHsi } := by decide

/-- C2 (code bug): `sys_ck(32, 129, 2)` is accepted and stores 129 MHz, but
`freeze` then panics: the reference frequency is exactly 2 MHz, which falls
into the gap between the half-open RGE match arms `1_000_001..2_000_000`
and `2_000_001..4_000_000`, hitting `unreachable!()` right after the PLL
source and pre-divider writes — no `Clocks` value is produced. -/
theorem c2_code_bug :
    sysCkSet constrainCfgr 32 129 2 = some cfgr129 ∧
    cfgr129.sys_ck = some 129000000 ∧
    HSI / 32 = 2000000 ∧
    rgeBits 2000000 = none ∧
    (freeze cfgr129).result = none ∧
    (freeze cfgr129).writes = [RegWrite.pllSrc 0, RegWrite.pllDivm 32] := by decide

/-- C4 (code bug): the flash timing selector is undefined exactly on the
band boundaries 45, 90, 135 and 180 MHz (the half-open match arms leave
them for `unreachable!()`), although neighbouring frequencies are served;
an achieved core-bus frequency of exactly 45 MHz is reachable — e.g. from
`sys_ck(5, 225, 64)` with no bus targets — and makes `freeze` panic. -/
theorem c4_code_bug :
    sysCkSet constrainCfgr 5 225 64 = some cfgr45 ∧
    acrConfig 44999999 = some (0, 0) ∧
    acrConfig 45000000 = none ∧
    acrConfig 45000001 = some (1, 1) ∧
    acrConfig 90000000 = none ∧
    acrConfig 135000000 = none ∧
    acrConfig 180000000 = none ∧
    (freeze cfgr45).result = none := by decide

/-- C6 (counterexample): the triple (5, 512, 128) satisfies every bound of
the claim — divider ranges, reference frequency 12.8 MHz, exact PLL output
(64 MHz / 5) x 512 / 128 = 51.2 MHz < 400 MHz — so the claim requires the
setter to store 51200000; but the u32 product wraps modulo 2^32 and the
setter stores 17645568 instead. -/
theorem c6_counterexample :
    (sysCkSet constrainCfgr 5 512 128).map (fun c => c.sys_ck) = some (some 17645568) ∧
    HSI / 5 * 512 / 128 = 51200000 ∧
    (sysCkSet constrainCfgr 5 512 128).map (fun c => c.sys_ck) ≠
      some (some (HSI / 5 * 512 / 128)) := by decide

/-- C6 (amended): with the product taken in 32-bit wrapping arithmetic, the
sys_ck setter returns normally and stores ((oscillator / pre) * mult mod
2^32) / post exactly when pre is in 1-63, mult in 3-512, post even in
2-128, the reference frequency strictly between 1 and 16 MHz, and the
wrapped PLL output strictly below 400 MHz; any violated bound panics. -/
theorem c6_sysck_set (c : CFGR) (m n p : Nat) :
    (specValidTriple m n p →
      sysCkSet c m n p =
        some { c with divm := some m, divp := some p, divn := some n,
                      sys_ck := some (wrapMul (HSI / m) n / p) }) ∧
    (¬ specValidTriple m n p → sysCkSet c m n p = none) := by
  constructor
  · intro h
    obtain ⟨h1, h2, h3, h4, h5, h6, h7, h8, h9, h10⟩ := h
    simp only [sysCkSet]
    rw [if_pos ⟨h1, h2⟩, if_pos ⟨h3, h4⟩, if_pos ⟨h5, h6, h7⟩, if_pos ⟨h8, h9⟩, if_pos h10]
  · intro h
    simp only [sysCkSet]
    split_ifs with h1 h2 h3 h4 h5
    · exact absurd ⟨h1.1, h1.2, h2.1, h2.2, h3.1, h3.2.1, h3.2.2, h4.1, h4.2, h5⟩ h
    all_goals rfl

/-- C6 (witness): a valid triple is accepted with the wrapped value stored,
and an out-of-range pre-divider is rejected. -/
theorem c6_sysck_set_witness :
    sysCkSet constrainCfgr 5 300 16 =
      some { constrainCfgr with divm := some 5, divp := some 16, divn := some 300,
                                sys_ck := some (wrapMul (HSI / 5) 300 / 16) } ∧
    sysCkSet constrainCfgr 64 300 16 = none :=
  ⟨(c6_sysck_set constrainCfgr 5 300 16).1 (by decide),
   (c6_sysck_set constrainCfgr 64 300 16).2 (by decide)⟩

/-- C9: flash timing selection is monotonic — whenever the selector is
defined at frequencies f1 ≤ f2, the wait-state count at f1 is at most the
wait-state count at f2. -/
theorem c9_flash_monotone (f1 f2 w1 p1 w2 p2 : Nat) (hle : f1 ≤ f2)
    (h1 : acrConfig f1 = some (w1, p1)) (h2 : acrConfig f2 = some (w2, p2)) :
    w1 ≤ w2 := by
  rcases acrConfig_eq_some f1 w1 p1 h1 with ha | ha | ha | ha | ha <;>
    rcases acrConfig_eq_some f2 w2 p2 h2 with hb | hb | hb | hb | hb <;> omega

/-- C9 (witness): evaluated at 10 MHz (0 wait-states) and 100 MHz (2
wait-states). -/
theorem c9_flash_monotone_witness :
    acrConfig 10000000 = some (0, 0) ∧ acrConfig 100000000 = some (2, 1) ∧ (0 : Nat) ≤ 2 :=
  ⟨rfl, rfl, c9_flash_monotone 10000000 100000000 0 0 2 1 (by decide) rfl rfl⟩

/-- C3 (counterexample): a core-bus target of 201 MHz makes `freeze` fail,
but only after the system-clock-source register has already been written —
the write trace at the panic is `[cfgrSw 0]`, not empty, so the bounds
error is not raised before every register write. -/
theorem c3_counterexample :
    (freeze cfgr201).result = none ∧
    (freeze cfgr201).writes = [RegWrite.cfgrSw 0] ∧
    (freeze cfgr201).writes ≠ [] := by decide

/-- C3 (amended): the core-bus-target bounds error (e.g. a 201 MHz target)
is raised during `freeze` after the system-clock-source / PLL registers are
written but before any prescaler or flash-control register write, so a
failed commit leaves the prescaler and flash registers untouched. -/
theorem c3_range_error_timing (c : CFGR) (t : Nat) (h1 : c.hclk1 = some t)
    (h2 : 200000000 ≤ t) :
    (freeze c).result = none ∧ (freeze c).writes.all sysOrPllWrite = true := by
  have hsel : ∀ sys, hpreSel c sys = none := fun sys => hclk1_big_sel c sys t h1 h2
  unfold freeze
  split_ifs with hs
  · rw [freezeBus_none_sel _ _ _ (hsel _)]
    exact ⟨rfl, rfl⟩
  · exact pllSeq_guarded c hsel

/-- C3 (witness): the amended statement evaluated at the 201 MHz target. -/
theorem c3_range_error_timing_witness :
    (freeze cfgr201).result = none ∧ (freeze cfgr201).writes.all sysOrPllWrite = true :=
  c3_range_error_timing cfgr201 201000000 rfl (by decide)

/-- C5: for every core-bus target below 200 MHz and every (u32) achieved
system clock, `freeze` chooses exactly the table divisor produced by the
search; it is a member of the core-bus divisor table, and every strictly
smaller table divisor is strictly farther from the target under the
selector's own signed, non-absolute wrapping metric target - sys / d. -/
theorem c5_core_divisor (t sys : Nat) (ht : t < 200000000) (_hsys : sys < U32)
    (c : CFGR) (hc : c.hclk1 = some t) :
    hpreSel c sys = some (bestDiv t sys hpreTable) ∧
    bestDiv t sys hpreTable ∈ hpreTable ∧
    ∀ d ∈ hpreTable, d < bestDiv t sys hpreTable →
      wrapSub t (sys / bestDiv t sys hpreTable) < wrapSub t (sys / d) := by
  have key := bestDiv_inv t sys hpreTable (by decide) (by decide) (by decide)
  refine ⟨?_, key.1, key.2⟩
  simp only [hpreSel, hc]
  rw [if_pos ht]

/-- C5 (witness): evaluated at a 100 MHz target with a 64 MHz system
clock. -/
theorem c5_core_divisor_witness :
    hpreSel cfgrH1 64000000 = some (bestDiv 100000000 64000000 hpreTable) ∧
    bestDiv 100000000 64000000 hpreTable ∈ hpreTable ∧
    ∀ d ∈ hpreTable, d < bestDiv 100000000 64000000 hpreTable →
      wrapSub 100000000 (64000000 / bestDiv 100000000 64000000 hpreTable) <
        wrapSub 100000000 (64000000 / d) :=
  c5_core_divisor 100000000 64000000 (by decide) (by decide) cfgrH1 rfl

/-- C7: every successful `freeze` chooses all four peripheral divisors from
the peripheral divisor table and reports each achieved peripheral-bus
frequency as exactly the integer quotient of the achieved core-bus
frequency by that divisor. -/
theorem c7_ppre_exact (c : CFGR) (clk : Clocks) (h : (freeze c).result = some clk) :
    (clk.d1ppre ∈ ppreTable ∧ clk.pclk1 = clk.hclk1 / clk.d1ppre) ∧
    (clk.d2ppre1 ∈ ppreTable ∧ clk.pclk2 = clk.hclk2 / clk.d2ppre1) ∧
    (clk.d2ppre2 ∈ ppreTable ∧ clk.pclk3 = clk.hclk3 / clk.d2ppre2) ∧
    (clk.d3ppre ∈ ppreTable ∧ clk.pclk4 = clk.hclk4 / clk.d3ppre) := by
  obtain ⟨ws, sys, hb⟩ := freeze_via_bus c clk h
  exact freezeBus_ppre ws sys c clk hb

/-- C7 (witness): evaluated on the default-builder freeze result. -/
theorem c7_ppre_exact_witness :
    (clocksHsi.d1ppre ∈ ppreTable ∧ clocksHsi.pclk1 = clocksHsi.hclk1 / clocksHsi.d1ppre) ∧
    (clocksHsi.d2ppre1 ∈ ppreTable ∧ clocksHsi.pclk2 = clocksHsi.hclk2 / clocksHsi.d2ppre1) ∧
    (clocksHsi.d2ppre2 ∈ ppreTable ∧ clocksHsi.pclk3 = clocksHsi.hclk3 / clocksHsi.d2ppre2) ∧
    (clocksHsi.d3ppre ∈ ppreTable ∧ clocksHsi.pclk4 = clocksHsi.hclk4 / clocksHsi.d3ppre) :=
  c7_ppre_exact constrainCfgr clocksHsi (by decide)

/-- C8: the HPRE choice honors the first present core-bus target in the
order hclk1, hclk2, hclk3, hclk4 (later targets are ignored); with none set
the divisor is 1, or 2 when the achieved system clock exceeds 200 MHz; in
particular a 240 MHz system clock with no core-bus target freezes with
divisor 2 and achieved core-bus frequency 120 MHz. -/
theorem c8_hpre_priority :
    (∀ c sys t, c.hclk1 = some t →
      hpreSel c sys = if t < 200000000 then some (bestDiv t sys hpreTable) else none) ∧
    (∀ c sys t, c.hclk1 = none → c.hclk2 = some t →
      hpreSel c sys = if t < 200000000 then some (bestDiv t sys hpreTable) else none) ∧
    (∀ c sys t, c.hclk1 = none → c.hclk2 = none → c.hclk3 = some t →
      hpreSel c sys = if t < 200000000 then some (bestDiv t sys hpreTable) else none) ∧
    (∀ c sys t, c.hclk1 = none → c.hclk2 = none → c.hclk3 = none → c.hclk4 = some t →
      hpreSel c sys = if t < 200000000 then some (bestDiv t sys hpreTable) else none) ∧
    (∀ c sys, c.hclk1 = none → c.hclk2 = none → c.hclk3 = none → c.hclk4 = none →
      hpreSel c sys = some (if 200000000 < sys then 2 else 1)) ∧
    ((freeze cfgr240).result.map Clocks.hpre = some 2 ∧
     (freeze cfgr240).result.map Clocks.hclk1 = some 120000000) := by
  refine ⟨?_, ?_, ?_, ?_, ?_, by decide⟩
  · intro c sys t h1
    simp [hpreSel, h1]
  · intro c sys t h1 h2
    simp [hpreSel, h1, h2]
  · intro c sys t h1 h2 h3
    simp [hpreSel, h1, h2, h3]
  · intro c sys t h1 h2 h3 h4
    simp [hpreSel, h1, h2, h3, h4]
  · intro c sys h1 h2 h3 h4
    simp [hpreSel, h1, h2, h3, h4]

/-- C8 (witness): the first-priority case evaluated at a 100 MHz hclk1
target and a 240 MHz system clock. -/
theorem c8_hpre_priority_witness :
    hpreSel cfgrH1 240000000 =
      (if 100000000 < 200000000 then some (bestDiv 100000000 240000000 hpreTable) else none) :=
  c8_hpre_priority.1 cfgrH1 240000000 100000000 rfl

/-- C10: in every builder state reachable through the public API the stored
system-clock target is present exactly when all three PLL dividers are; on
the PLL path of `freeze` (stored system clock differing from HSI) the
dividers are therefore all present — the coded fallback defaults 32/128/1
are never consulted — and the line-293 recomputation reproduces exactly the
value the sys_ck setter stored. -/
theorem c10_builder_invariant (c : CFGR) (h : Reachable c) :
    (c.sys_ck.isSome ↔ c.divm.isSome ∧ c.divn.isSome ∧ c.divp.isSome) ∧
    (c.sys_ck.getD HSI ≠ HSI →
      c.divm.isSome ∧ c.divn.isSome ∧ c.divp.isSome ∧
      freezeSysRecompute c = c.sys_ck.getD HSI) := by
  obtain ⟨hiff, hval⟩ := reachable_inv c h
  refine ⟨hiff, fun hne => ?_⟩
  cases hs : c.sys_ck with
  | none =>
    rw [hs] at hne
    exact absurd rfl hne
  | some s =>
    obtain ⟨hm, hn, hp⟩ := hiff.mp (by rw [hs]; rfl)
    exact ⟨hm, hn, hp, hval s hs⟩

/-- C10 (witness): the builder reached by `constrain` then
`sys_ck(5, 300, 16)` stores 240 MHz and the freeze-side recomputation
reproduces it. -/
theorem c10_builder_invariant_witness : freezeSysRecompute cfgr240 = 240000000 := by
  have r : Reachable cfgr240 :=
    Reachable.sysck constrainCfgr 5 300 16 cfgr240 Reachable.constrain (by decide)
  have h := (c10_builder_invariant cfgr240 r).2 (by decide)
  exact h.2.2.2.trans (by decide)
